import Mathlib

/- Shallow embedding of the GitHub Issue Analyzer backend
(src/backend/main.py and src/backend/models.py).

Python strings are modelled as lists of characters (Str), Python
exceptions as Except error values, and the three outbound network
interactions (issue fetch, comments fetch, LLM call) as explicit outcome
parameters threaded through the functions that perform them.
Char.toLower, Char.isWhitespace, Char.isAlpha and Char.isDigit model the
corresponding Python string operations on the ASCII inputs all claims
are about. -/

abbrev Str := List Char

/-- Python str.lower, character by character. -/
def lowerStr (s : Str) : Str := s.map Char.toLower

/-- Python str.strip with no argument: drop whitespace from both ends. -/
def stripStr (s : Str) : Str :=
  ((s.dropWhile Char.isWhitespace).reverse.dropWhile Char.isWhitespace).reverse

/-- Python str.rstrip with argument slash, as used by parse_github_url. -/
def rstripSlash (s : Str) : Str :=
  (s.reverse.dropWhile (fun c => c == '/')).reverse

/-- Python substring containment, the in operator on strings. -/
def hasSub (needle : Str) : Str → Bool
  | [] => needle.isPrefixOf []
  | c :: t => needle.isPrefixOf (c :: t) || hasSub needle t

/- ------------------------------------------------------------------ -/
/- URL parser: parse_github_url, src/backend/main.py lines 117-145.    -/
/- ------------------------------------------------------------------ -/

/-- Tail of each regex alternative in parse_github_url: the pattern
([^/]+)/([^/]+)/?$ applied after an anchored literal piece — two
nonempty slash-free capture groups, an optional final slash, end of
string.  Greedy [^/]+ matching corresponds to takeWhile on non-slash
characters. -/
def matchTwoSeg (u : Str) : Option (Str × Str) :=
  let a := u.takeWhile (fun c => c != '/')
  match u.dropWhile (fun c => c != '/') with
  | '/' :: r2 =>
    let b := r2.takeWhile (fun c => c != '/')
    match r2.dropWhile (fun c => c != '/') with
    | [] => if a = [] ∨ b = [] then none else some (a, b)
    | ['/'] => if a = [] ∨ b = [] then none else some (a, b)
    | _ => none
  | _ => none

def gitSuffix : Str := ['.', 'g', 'i', 't']

/-- The .git suffix removal on the repo capture group. -/
def dropGit (r : Str) : Str :=
  if gitSuffix.isSuffixOf r then r.take (r.length - 4) else r

def httpsPre : Str :=
  ['h', 't', 't', 'p', 's', ':', '/', '/', 'g', 'i', 't', 'h', 'u', 'b',
   '.', 'c', 'o', 'm', '/']

def httpPre : Str :=
  ['h', 't', 't', 'p', ':', '/', '/', 'g', 'i', 't', 'h', 'u', 'b',
   '.', 'c', 'o', 'm', '/']

def domPre : Str :=
  ['g', 'i', 't', 'h', 'u', 'b', '.', 'c', 'o', 'm', '/']

/-- re.match of one anchored pattern that begins with a literal piece:
the literal must be a prefix of the input and the remainder must match
the two-segment tail. -/
def tryPat (pre u : Str) : Option (Str × Str) :=
  if pre.isPrefixOf u then matchTwoSeg (u.drop pre.length) else none

def emptyUrlMsg : Str := "Repository URL cannot be empty".data

def invalidUrlMsg : Str :=
  "Invalid GitHub repository URL format. Expected: https://github.com/owner/repo".data

/-- The loop over the four regex alternatives of parse_github_url, in
source order, first match wins; on a match the .git suffix of the repo
group is removed. -/
def parsePatterns (u : Str) : Except Str (Str × Str) :=
  match tryPat httpsPre u with
  | some (o, r) => .ok (o, dropGit r)
  | none =>
    match tryPat httpPre u with
    | some (o, r) => .ok (o, dropGit r)
    | none =>
      match tryPat domPre u with
      | some (o, r) => .ok (o, dropGit r)
      | none =>
        match matchTwoSeg u with
        | some (o, r) => .ok (o, dropGit r)
        | none => .error invalidUrlMsg

/-- parse_github_url: empty check, strip whitespace and trailing
slashes, then the pattern loop. -/
def parse_github_url (repo_url : Str) : Except Str (Str × Str) :=
  if repo_url = [] then .error emptyUrlMsg
  else parsePatterns (rstripSlash (stripStr repo_url))

/- ------------------------------------------------------------------ -/
/- Pydantic model IssueAnalysis, src/backend/models.py lines 36-94.    -/
/- ------------------------------------------------------------------ -/

structure IssueAnalysis where
  summary : Str
  type : Str
  priority_score : Str
  suggested_labels : List Str
  potential_impact : Str
deriving DecidableEq

/-- One character of the label character class [a-zA-Z0-9\-_\s]. -/
def validLabelChar (c : Char) : Bool :=
  c.isAlpha || c.isDigit || c == '-' || c == '_' || c.isWhitespace

/-- One iteration of the cleaning loop in IssueAnalysis.validate_labels:
keep a label only if it is nonempty after strip and its
stripped-and-lowercased form matches the label character class. -/
def cleanLabel (label : Str) : Option Str :=
  if stripStr label = [] then none
  else
    let cleaned := lowerStr (stripStr label)
    if cleaned.all validLabelChar then some cleaned else none

def labelRequiredMsg : Str := "At least one suggested label is required".data
def noValidLabelsMsg : Str := "No valid labels found".data

/-- The body of the validate_labels validator. -/
def validate_labels (v : List Str) : Except Str (List Str) :=
  if v = [] then .error labelRequiredMsg
  else
    let cleaned_labels := v.filterMap cleanLabel
    if cleaned_labels = [] then .error noValidLabelsMsg
    else .ok (cleaned_labels.take 5)

def minItemsMsg : Str := "ensure this value has at least 1 items".data
def maxItemsMsg : Str := "ensure this value has at most 5 items".data

/-- The suggested_labels field as pydantic validates it: the declared
min_items and max_items constraints of the Field run first, then the
custom validate_labels validator. -/
def suggestedLabelsField (v : List Str) : Except Str (List Str) :=
  if v.length < 1 then .error minItemsMsg
  else if 5 < v.length then .error maxItemsMsg
  else validate_labels v

/-- A string field with a max_length constraint followed by a validator
that rejects values empty after strip and returns the stripped value
(used by summary and potential_impact). -/
def nonEmptyStripField (v : Str) (maxLen : Nat) (emptyMsg : Str) : Except Str Str :=
  if maxLen < v.length then .error ("max_length exceeded".data)
  else if stripStr v = [] then .error emptyMsg
  else .ok (stripStr v)

def summaryEmptyMsg : Str := "Summary cannot be empty".data
def impactEmptyMsg : Str := "Potential impact cannot be empty".data

def typeEnum : List Str :=
  ["bug".data, "feature_request".data, "documentation".data,
   "question".data, "other".data]

/-- The type field: the declared regex pattern admits exactly the five
enum literals. -/
def typeField (v : Str) : Except Str Str :=
  if typeEnum.contains v then .ok v
  else .error ("string does not match the type pattern".data)

/-- The priority_score field: only a max_length constraint. -/
def priorityField (v : Str) : Except Str Str :=
  if 100 < v.length then .error ("max_length exceeded".data) else .ok v

/- A parsed JSON value restricted to the shapes the model schema admits:
strings and arrays of strings.  Other JSON shapes make the overall
construction fail, which the callers of IssueAnalysis handle the same
way as a parse failure. -/

inductive JVal where
  | jstr : Str → JVal
  | jlist : List Str → JVal
deriving DecidableEq

/-- A keyword-argument dictionary, as passed to IssueAnalysis. -/
abbrev Candidate := List (Str × JVal)

/-- Python dict lookup; with duplicate keys the last occurrence wins,
matching json.loads. -/
def dictGet (c : Candidate) (k : Str) : Option JVal :=
  (c.reverse.find? (fun p => p.fst == k)).map (fun p => p.snd)

def kSummary : Str := "summary".data
def kType : Str := "type".data
def kPriority : Str := "priority_score".data
def kLabels : Str := "suggested_labels".data
def kImpact : Str := "potential_impact".data

/-- Read a required string field out of the keyword dictionary. -/
def strField (c : Candidate) (k : Str) : Except Str Str :=
  match dictGet c k with
  | some (JVal.jstr s) => .ok s
  | some (JVal.jlist _) => .error ("str type expected".data)
  | none => .error ("field required".data)

/-- Read a required list-of-strings field out of the keyword dictionary. -/
def listField (c : Candidate) (k : Str) : Except Str (List Str) :=
  match dictGet c k with
  | some (JVal.jlist l) => .ok l
  | some (JVal.jstr _) => .error ("value is not a valid list".data)
  | none => .error ("field required".data)

/-- IssueAnalysis construction with validation: each declared field in
order, its Field constraints first, then its custom validator.  Any
violation is an error (a pydantic ValidationError in the source). -/
def mkIssueAnalysis (c : Candidate) : Except Str IssueAnalysis := do
  let s0 ← strField c kSummary
  let summary ← nonEmptyStripField s0 200 summaryEmptyMsg
  let t0 ← strField c kType
  let ty ← typeField t0
  let p0 ← strField c kPriority
  let priority ← priorityField p0
  let l0 ← listField c kLabels
  let labels ← suggestedLabelsField l0
  let i0 ← strField c kImpact
  let impact ← nonEmptyStripField i0 200 impactEmptyMsg
  return { summary := summary, type := ty, priority_score := priority,
           suggested_labels := labels, potential_impact := impact }

/- ------------------------------------------------------------------ -/
/- Heuristic fallback: create_fallback_analysis, main.py 295-321.      -/
/- ------------------------------------------------------------------ -/

def bugWords : List Str :=
  ["bug".data, "error".data, "issue".data, "broken".data, "not working".data]

def featureWords : List Str :=
  ["feature".data, "add".data, "support".data, "enhancement".data]

def docWords : List Str :=
  ["doc".data, "documentation".data, "readme".data]

def questionStarts : List Str :=
  ["how".data, "why".data, "what".data, "?".data]

def priorityFallback : Str :=
  "3 - Unable to determine exact priority, defaulting to moderate".data

def impactFallback : Str :=
  "Impact assessment requires manual review due to processing error".data

def summaryPre : Str := "Issue regarding: ".data

def needsTriage : Str := "needs-triage".data

/-- create_fallback_analysis: keyword rules on the lowercased title in
source order, first match wins; the lowercased body is computed but
never used; summary truncates the title at 100 characters; labels are
the first three existing ones or a single needs-triage label. -/
def create_fallback_analysis (title body : Str) (existing_labels : List Str) :
    Candidate :=
  let title_lower := lowerStr title
  let _body_lower := lowerStr body
  let issue_type :=
    if bugWords.any (fun w => hasSub w title_lower) then "bug".data
    else if featureWords.any (fun w => hasSub w title_lower) then
      "feature_request".data
    else if docWords.any (fun w => hasSub w title_lower) then
      "documentation".data
    else if questionStarts.any (fun w => w.isPrefixOf title_lower) then
      "question".data
    else "other".data
  let summary :=
    summaryPre ++ title.take 100 ++ (if 100 < title.length then "...".data else [])
  [(kSummary, JVal.jstr summary),
   (kType, JVal.jstr issue_type),
   (kPriority, JVal.jstr priorityFallback),
   (kLabels, JVal.jlist
      (if existing_labels = [] then [needsTriage] else existing_labels.take 3)),
   (kImpact, JVal.jstr impactFallback)]

/- ------------------------------------------------------------------ -/
/- Response normalizer: analyze_with_llm, main.py lines 229-293.       -/
/- ------------------------------------------------------------------ -/

/-- The greedy DOTALL search for a brace-delimited span: the match of the
regex starts at the first opening brace that has a closing brace
somewhere after it and extends to the last closing brace of the string.
Returns none when the regex finds no match. -/
def extractJson (s : Str) : Option Str :=
  let u := (s.reverse.dropWhile (fun c => c != '\x7d')).reverse
  let v := u.dropWhile (fun c => c != '\x7b')
  if v = [] then none else some v

/-- The candidate text handed to the JSON parser: the stripped raw text,
replaced by the extracted span when the regex matched. -/
def extractCandidate (t : Str) : Str :=
  let s := stripStr t
  (extractJson s).getD s

/- json.loads, modelled on the fragment of JSON the schema is about:
one object whose values are string literals or arrays of string
literals, with arbitrary whitespace, no escape sequences.  Input outside
this fragment parses to none; in the source such replies either fail
json.loads or fail IssueAnalysis validation, and both paths continue
with the same fallback analysis, so the final outcome agrees. -/

def skipWs (s : Str) : Str := s.dropWhile Char.isWhitespace

/-- A JSON string literal without escape sequences: content up to the
next double quote; a backslash in the content is out of fragment. -/
def parseStrLit (s : Str) : Option (Str × Str) :=
  match s with
  | '"' :: rest =>
    let content := rest.takeWhile (fun c => c != '"')
    if content.contains '\\' then none
    else
      match rest.dropWhile (fun c => c != '"') with
      | '"' :: rest2 => some (content, rest2)
      | _ => none
  | _ => none

/-- Comma-separated string literals up to a closing bracket. -/
def parseStrItems : Nat → Str → Option (List Str × Str)
  | 0, _ => none
  | fuel + 1, s =>
    match parseStrLit (skipWs s) with
    | none => none
    | some (x, rest) =>
      match skipWs rest with
      | ',' :: r2 =>
        match parseStrItems fuel r2 with
        | some (xs, r3) => some (x :: xs, r3)
        | none => none
      | ']' :: r2 => some ([x], r2)
      | _ => none

/-- A JSON array of string literals. -/
def parseJArr (s : Str) : Option (List Str × Str) :=
  match s with
  | '[' :: r =>
    match skipWs r with
    | ']' :: r2 => some ([], r2)
    | _ => parseStrItems (r.length + 1) r
  | _ => none

/-- A JSON value of the fragment. -/
def parseJVal (s : Str) : Option (JVal × Str) :=
  match s with
  | '"' :: _ => (parseStrLit s).map (fun p => (JVal.jstr p.fst, p.snd))
  | '[' :: _ => (parseJArr s).map (fun p => (JVal.jlist p.fst, p.snd))
  | _ => none

/-- Comma-separated key-value pairs up to the closing brace. -/
def parsePairs : Nat → Str → Option (Candidate × Str)
  | 0, _ => none
  | fuel + 1, s =>
    match parseStrLit (skipWs s) with
    | none => none
    | some (k, rest) =>
      match skipWs rest with
      | ':' :: r2 =>
        match parseJVal (skipWs r2) with
        | none => none
        | some (v, r3) =>
          match skipWs r3 with
          | ',' :: r4 =>
            match parsePairs fuel r4 with
            | some (ps, r5) => some ((k, v) :: ps, r5)
            | none => none
          | '\x7d' :: r4 => some ([(k, v)], r4)
          | _ => none
      | _ => none

/-- json.loads on the fragment: a single object covering the whole
input up to surrounding whitespace. -/
def jsonParse (s : Str) : Option Candidate :=
  match skipWs s with
  | '\x7b' :: r =>
    match skipWs r with
    | '\x7d' :: r2 => if skipWs r2 = [] then some [] else none
    | _ =>
      match parsePairs (r.length + 1) r with
      | some (ps, rest) => if skipWs rest = [] then some ps else none
      | none => none
  | _ => none

/-- A GitHub label object: the value of its name key, when present, as
read by label.get with default empty string. -/
structure Label where
  name : Option Str
deriving DecidableEq

/-- What one generate_content call produced: an exception or empty
response object (failure), or raw reply text. -/
inductive LlmOutcome where
  | failure
  | text : Str → LlmOutcome
deriving DecidableEq

/-- analyze_with_llm: the LLM call and JSON handling inside the outer
try.  A parse failure substitutes the fallback dictionary; any failure
of the attempt (LLM error, empty reply text, or a validation error on
the constructed model) is caught by the outer handler, which builds the
fallback dictionary and validates it — and propagates the error when
that validation itself fails. -/
def analyze_with_llm (title body comments : Str) (labels : List Label)
    (state : Str) (llm : LlmOutcome) : Except Str IssueAnalysis :=
  let existing_labels := labels.map (fun l => l.name.getD [])
  let attempt : Except Str IssueAnalysis :=
    match llm with
    | LlmOutcome.failure => .error ("Error in AI analysis".data)
    | LlmOutcome.text t =>
      if t = [] then .error ("Empty response from AI model".data)
      else
        let response_text := stripStr t
        let candidate := (extractJson response_text).getD response_text
        let analysis_data :=
          match jsonParse candidate with
          | some d => d
          | none => create_fallback_analysis title body existing_labels
        mkIssueAnalysis analysis_data
  match attempt with
  | .ok a => .ok a
  | .error _ => mkIssueAnalysis (create_fallback_analysis title body existing_labels)

/- ------------------------------------------------------------------ -/
/- GitHub client and endpoint orchestrator, main.py lines 73-227.      -/
/- ------------------------------------------------------------------ -/

/-- The issue object returned by the GitHub API, with the fields the
handler reads (body may be JSON null). -/
structure IssueData where
  title : Str
  body : Option Str
  state : Str
  labels : List Label
  comments : Nat
  comments_url : Str
  pull_request : Bool
deriving DecidableEq

/-- Python exception classes distinguished by the endpoint handler. -/
inductive PyErr where
  | valueError : Str → PyErr
  | requestError : Str → PyErr
deriving DecidableEq

/-- Outcome of the issue-fetch HTTP request. -/
inductive FetchOutcome where
  | timeout
  | connFailure
  | response : Nat → IssueData → FetchOutcome
deriving DecidableEq

/-- One comment object: user login (absent chains to the unknown
default) and body as read by comment.get with default empty string. -/
structure CommentInfo where
  login : Option Str
  body : Str
deriving DecidableEq

/-- Outcome of the comments-fetch HTTP request. -/
inductive CommentsOutcome where
  | failure
  | response : Nat → List CommentInfo → CommentsOutcome
deriving DecidableEq

/-- The outbound network requests the handler can attempt. -/
inductive NetCall where
  | issueFetch
  | commentsFetch
  | llmCall
deriving DecidableEq

def ratelimitMsg : Str :=
  "GitHub API rate limit exceeded or repository is private".data

/-- get_issue_data: the positivity guard runs before the HTTP request is
made; 404 and 403 raise ValueError, any other non-200 and
timeout/connection failures raise RequestException.  The second
component records which requests were attempted. -/
def get_issue_data (owner repo : Str) (issue_number : Int) (f : FetchOutcome) :
    Except PyErr IssueData × List NetCall :=
  if issue_number ≤ 0 then
    (.error (PyErr.valueError ("Issue number must be positive".data)), [])
  else
    match f with
    | FetchOutcome.timeout =>
      (.error (PyErr.requestError ("GitHub API request timed out".data)),
       [NetCall.issueFetch])
    | FetchOutcome.connFailure =>
      (.error (PyErr.requestError ("Failed to connect to GitHub API".data)),
       [NetCall.issueFetch])
    | FetchOutcome.response status d =>
      if status = 404 then
        (.error (PyErr.valueError ("Issue not found in repository".data)),
         [NetCall.issueFetch])
      else if status = 403 then
        (.error (PyErr.valueError ratelimitMsg), [NetCall.issueFetch])
      else if status ≠ 200 then
        (.error (PyErr.requestError ("GitHub API returned non-200 status".data)),
         [NetCall.issueFetch])
      else (.ok d, [NetCall.issueFetch])

def commentSep : Str := "\n---COMMENT---\n".data

/-- The comment rendering loop of get_issue_comments: comments whose
body is empty after strip are skipped, the rest render with author
attribution. -/
def renderedComments (data : List CommentInfo) : List Str :=
  data.filterMap (fun c =>
    let author := c.login.getD ("unknown".data)
    let body := stripStr c.body
    if body = [] then none
    else some ("Comment by ".data ++ author ++ ":\n".data ++ body))

/-- get_issue_comments: an empty URL short-circuits without a request;
any exception or non-200 status degrades to the empty string; otherwise
the rendered comments join on the fixed separator. -/
def get_issue_comments (comments_url : Str) (out : CommentsOutcome) :
    Str × List NetCall :=
  if comments_url = [] then ([], [])
  else
    match out with
    | CommentsOutcome.failure => ([], [NetCall.commentsFetch])
    | CommentsOutcome.response status data =>
      if status ≠ 200 then ([], [NetCall.commentsFetch])
      else if data = [] then ([], [NetCall.commentsFetch])
      else (commentSep.intercalate (renderedComments data), [NetCall.commentsFetch])

/-- The request body of POST analyze.  The pydantic Field on
issue_number also declares the bound one or more, checked by the
framework before the handler runs; issueRequestFieldOk records it. -/
structure IssueRequest where
  repo_url : Str
  issue_number : Int
deriving DecidableEq

def issueRequestFieldOk (req : IssueRequest) : Bool := 1 ≤ req.issue_number

/-- The environment of one request: what each outbound interaction
would produce if attempted. -/
structure Env where
  fetch : FetchOutcome
  commentsResult : CommentsOutcome
  llm : LlmOutcome
deriving DecidableEq

/-- The HTTP response of the analyze endpoint. -/
inductive HttpOutcome where
  | ok : IssueAnalysis → HttpOutcome
  | httpError : Nat → Str → HttpOutcome
deriving DecidableEq

def statusOf : HttpOutcome → Nat
  | HttpOutcome.ok _ => 200
  | HttpOutcome.httpError s _ => s

def badGatewayMsg : Str := "Failed to fetch data from GitHub API".data

def internalErrorMsg : Str := "Internal server error during analysis".data

/-- analyze_issue: parse the URL, fetch the issue, fetch comments when
the issue has any, analyze.  ValueError maps to 400, RequestException to
502, anything else (including a validation error escaping
analyze_with_llm) to 500.  The second component is the list of network
requests attempted, in order. -/
def analyze_issue (req : IssueRequest) (env : Env) :
    HttpOutcome × List NetCall :=
  match parse_github_url req.repo_url with
  | .error m => (HttpOutcome.httpError 400 m, [])
  | .ok (owner, repo) =>
    match get_issue_data owner repo req.issue_number env.fetch with
    | (.error (PyErr.valueError m), calls) => (HttpOutcome.httpError 400 m, calls)
    | (.error (PyErr.requestError _), calls) =>
      (HttpOutcome.httpError 502 badGatewayMsg, calls)
    | (.ok d, calls) =>
      let cres :=
        if 0 < d.comments then get_issue_comments d.comments_url env.commentsResult
        else ([], [])
      match analyze_with_llm d.title (d.body.getD []) cres.fst d.labels d.state
          env.llm with
      | .ok a => (HttpOutcome.ok a, calls ++ cres.snd ++ [NetCall.llmCall])
      | .error _ =>
        (HttpOutcome.httpError 500 internalErrorMsg,
         calls ++ cres.snd ++ [NetCall.llmCall])

/- ------------------------------------------------------------------ -/
/- General list helpers used by the proofs.                            -/
/- ------------------------------------------------------------------ -/

theorem dropWhile_all_false {α : Type} {p : α → Bool} {s : List α}
    (h : ∀ c ∈ s, p c = false) : s.dropWhile p = s := by
  cases s with
  | nil => rfl
  | cons a t => simp [List.dropWhile_cons, h a (List.mem_cons_self a t)]

theorem takeWhile_all_true {α : Type} {p : α → Bool} {s : List α} :
    (∀ c ∈ s, p c = true) → s.takeWhile p = s := by
  induction s with
  | nil => intro _; rfl
  | cons a t ih =>
    intro h
    simp [List.takeWhile_cons, h a (List.mem_cons_self a t),
      ih (fun c hc => h c (List.mem_cons_of_mem a hc))]

theorem dropWhile_all_true {α : Type} {p : α → Bool} {s : List α} :
    (∀ c ∈ s, p c = true) → s.dropWhile p = [] := by
  induction s with
  | nil => intro _; rfl
  | cons a t ih =>
    intro h
    simp [List.dropWhile_cons, h a (List.mem_cons_self a t),
      ih (fun c hc => h c (List.mem_cons_of_mem a hc))]

theorem takeWhile_app {α : Type} {p : α → Bool} (o : List α) {c : α} (q : List α)
    (ho : ∀ x ∈ o, p x = true) (hc : p c = false) :
    (o ++ c :: q).takeWhile p = o := by
  induction o with
  | nil => simp [List.takeWhile_cons, hc]
  | cons a t ih =>
    simp [List.takeWhile_cons, ho a (List.mem_cons_self a t)]
    exact ih (fun x hx => ho x (List.mem_cons_of_mem a hx))

theorem dropWhile_app {α : Type} {p : α → Bool} (o : List α) {c : α} (q : List α)
    (ho : ∀ x ∈ o, p x = true) (hc : p c = false) :
    (o ++ c :: q).dropWhile p = c :: q := by
  induction o with
  | nil => simp [List.dropWhile_cons, hc]
  | cons a t ih =>
    simp [List.dropWhile_cons, ho a (List.mem_cons_self a t)]
    exact ih (fun x hx => ho x (List.mem_cons_of_mem a hx))

theorem strip_noop {s : Str} (h : ∀ c ∈ s, c.isWhitespace = false) :
    stripStr s = s := by
  unfold stripStr
  rw [dropWhile_all_false h]
  rw [dropWhile_all_false (fun c hc => h c (List.mem_reverse.mp hc))]
  exact List.reverse_reverse s

theorem mem_stripStr {c : Char} {s : Str} (h : c ∈ stripStr s) : c ∈ s := by
  unfold stripStr at h
  rw [List.mem_reverse] at h
  have h2 := (List.dropWhile_sublist _).subset h
  rw [List.mem_reverse] at h2
  exact (List.dropWhile_sublist _).subset h2

theorem rstripSlash_keep (X Y : Str) (hY : Y ≠ [])
    (hc : ∀ c ∈ Y, c ≠ '/') : rstripSlash (X ++ Y) = X ++ Y := by
  unfold rstripSlash
  cases hYr : Y.reverse with
  | nil => exact absurd (by simpa using hYr) hY
  | cons a t =>
    have ha : a ∈ Y := by
      rw [← List.mem_reverse, hYr]; exact List.mem_cons_self a t
    have ha2 : (a == '/') = false := by
      simpa using hc a ha
    rw [List.reverse_append, hYr]
    simp [List.dropWhile_cons, ha2]
    rw [← List.reverse_reverse Y, hYr, List.reverse_cons]

theorem rstripSlash_app_slash (A : Str) :
    rstripSlash (A ++ ['/']) = rstripSlash A := by
  unfold rstripSlash
  simp [List.dropWhile_cons]

theorem prefix_append_cases {α : Type} {p A B : List α} (h : p <+: A ++ B) :
    p <+: A ∨ ∃ q, p = A ++ q ∧ q <+: B := by
  induction A generalizing p with
  | nil => exact Or.inr ⟨p, by simp, by simpa using h⟩
  | cons a A ih =>
    rcases List.prefix_cons_iff.mp h with hp | ⟨t, rfl, ht⟩
    · subst hp; exact Or.inl List.nil_prefix
    · rcases ih ht with h1 | ⟨q, rfl, hq⟩
      · exact Or.inl (List.cons_prefix_cons.mpr ⟨rfl, h1⟩)
      · exact Or.inr ⟨q, by simp, hq⟩

theorem prefix_seg_split {pre o r : Str} {c : Char} (h : pre <+: o ++ c :: r) :
    pre <+: o ∨ ∃ q, pre = o ++ c :: q ∧ q <+: r := by
  rcases prefix_append_cases h with h1 | ⟨q, hq, hqB⟩
  · exact Or.inl h1
  · cases q with
    | nil => subst hq; exact Or.inl (by simp)
    | cons x q2 =>
      rcases List.cons_prefix_cons.mp hqB with ⟨rfl, hq2⟩
      exact Or.inr ⟨q2, hq, hq2⟩

/- ------------------------------------------------------------------ -/
/- URL parser lemmas.                                                  -/
/- ------------------------------------------------------------------ -/

theorem bne_all_of_ne {s : Str} {c0 : Char} (h : ∀ c ∈ s, c ≠ c0) :
    ∀ c ∈ s, (c != c0) = true := by
  intro c hc; simpa using h c hc

theorem matchTwoSeg_seg (o r : Str) (ho : o ≠ []) (hr : r ≠ [])
    (hoc : ∀ c ∈ o, c ≠ '/') (hrc : ∀ c ∈ r, c ≠ '/') :
    matchTwoSeg (o ++ '/' :: r) = some (o, r) := by
  have hslash : (('/' : Char) != '/') = false := by decide
  unfold matchTwoSeg
  rw [takeWhile_app o r (bne_all_of_ne hoc) hslash,
    dropWhile_app o r (bne_all_of_ne hoc) hslash]
  simp only [takeWhile_all_true (bne_all_of_ne hrc),
    dropWhile_all_true (bne_all_of_ne hrc)]
  simp [ho, hr]

theorem matchTwoSeg_noSlash (r : Str) (hrc : ∀ c ∈ r, c ≠ '/') :
    matchTwoSeg r = none := by
  unfold matchTwoSeg
  rw [dropWhile_all_true (bne_all_of_ne hrc)]

theorem https_not_prefix {o r : Str} (hoc : ∀ c ∈ o, c ≠ '/')
    (hrc : ∀ c ∈ r, c ≠ '/') : httpsPre.isPrefixOf (o ++ '/' :: r) = false := by
  rw [Bool.eq_false_iff]
  intro hT
  have h : httpsPre <+: o ++ '/' :: r := by
    rw [← List.isPrefixOf_iff_prefix]; exact hT
  have hslash : (('/' : Char) != '/') = false := by decide
  rcases prefix_seg_split h with h1 | ⟨q, hq, hqr⟩
  · exact hoc '/' (h1.subset (by decide)) rfl
  · have h2 : httpsPre.dropWhile (fun c => c != '/') = '/' :: q := by
      rw [hq]; exact dropWhile_app o q (bne_all_of_ne hoc) hslash
    have h3 : httpsPre.dropWhile (fun c => c != '/') =
        ['/', '/', 'g', 'i', 't', 'h', 'u', 'b', '.', 'c', 'o', 'm', '/'] := by
      decide
    rw [h3] at h2
    have hq2 : q = ['/', 'g', 'i', 't', 'h', 'u', 'b', '.', 'c', 'o', 'm', '/'] := by
      injection h2 with _ h4; exact h4.symm
    have : '/' ∈ r := hqr.subset (by rw [hq2]; exact List.mem_cons_self _ _)
    exact hrc '/' this rfl

theorem http_not_prefix {o r : Str} (hoc : ∀ c ∈ o, c ≠ '/')
    (hrc : ∀ c ∈ r, c ≠ '/') : httpPre.isPrefixOf (o ++ '/' :: r) = false := by
  rw [Bool.eq_false_iff]
  intro hT
  have h : httpPre <+: o ++ '/' :: r := by
    rw [← List.isPrefixOf_iff_prefix]; exact hT
  have hslash : (('/' : Char) != '/') = false := by decide
  rcases prefix_seg_split h with h1 | ⟨q, hq, hqr⟩
  · exact hoc '/' (h1.subset (by decide)) rfl
  · have h2 : httpPre.dropWhile (fun c => c != '/') = '/' :: q := by
      rw [hq]; exact dropWhile_app o q (bne_all_of_ne hoc) hslash
    have h3 : httpPre.dropWhile (fun c => c != '/') =
        ['/', '/', 'g', 'i', 't', 'h', 'u', 'b', '.', 'c', 'o', 'm', '/'] := by
      decide
    rw [h3] at h2
    have hq2 : q = ['/', 'g', 'i', 't', 'h', 'u', 'b', '.', 'c', 'o', 'm', '/'] := by
      injection h2 with _ h4; exact h4.symm
    have : '/' ∈ r := hqr.subset (by rw [hq2]; exact List.mem_cons_self _ _)
    exact hrc '/' this rfl

def ghSeg : Str := ['g', 'i', 't', 'h', 'u', 'b', '.', 'c', 'o', 'm']

theorem dom_prefix_seg {o r : Str} (hoc : ∀ c ∈ o, c ≠ '/')
    (h : domPre.isPrefixOf (o ++ '/' :: r) = true) : o = ghSeg := by
  have h0 : domPre <+: o ++ '/' :: r := by
    rw [← List.isPrefixOf_iff_prefix]; exact h
  have hslash : (('/' : Char) != '/') = false := by decide
  rcases prefix_seg_split h0 with h1 | ⟨q, hq, _⟩
  · have hm : ('/' : Char) ∈ domPre := by decide
    exact absurd rfl (hoc '/' (h1.subset hm))
  · have h2 : domPre.takeWhile (fun c => c != '/') = o := by
      rw [hq]; exact takeWhile_app o q (bne_all_of_ne hoc) hslash
    have h3 : domPre.takeWhile (fun c => c != '/') = ghSeg := by decide
    rw [h3] at h2
    exact h2.symm

theorem tryPat_pos {pre u : Str} (h : pre.isPrefixOf u = true) :
    tryPat pre u = matchTwoSeg (u.drop pre.length) := by
  unfold tryPat; rw [h]; simp

theorem tryPat_neg {pre u : Str} (h : pre.isPrefixOf u = false) :
    tryPat pre u = none := by
  unfold tryPat; rw [h]; simp

theorem dropGit_app (r : Str) : dropGit (r ++ gitSuffix) = r := by
  unfold dropGit
  have h1 : gitSuffix.isSuffixOf (r ++ gitSuffix) = true := by
    rw [List.isSuffixOf_iff_suffix]; exact List.suffix_append r gitSuffix
  rw [h1]
  have h2 : (r ++ gitSuffix).length - 4 = r.length := by simp [gitSuffix]
  simp only [h2, if_true]
  have h3 : r.length = (r : Str).length := rfl
  rw [List.take_left]

theorem dropGit_keep (r : Str) (h : gitSuffix.isSuffixOf r = false) :
    dropGit r = r := by
  unfold dropGit; rw [h]; simp

theorem parsePatterns_https (o r : Str) (ho : o ≠ []) (hr : r ≠ [])
    (hoc : ∀ c ∈ o, c ≠ '/') (hrc : ∀ c ∈ r, c ≠ '/') :
    parsePatterns (httpsPre ++ (o ++ '/' :: r)) = .ok (o, dropGit r) := by
  have h1 : httpsPre.isPrefixOf (httpsPre ++ (o ++ '/' :: r)) = true := by
    rw [List.isPrefixOf_iff_prefix]; exact List.prefix_append _ _
  unfold parsePatterns
  rw [tryPat_pos h1, List.drop_left, matchTwoSeg_seg o r ho hr hoc hrc]

theorem parsePatterns_http (o r : Str) (ho : o ≠ []) (hr : r ≠ [])
    (hoc : ∀ c ∈ o, c ≠ '/') (hrc : ∀ c ∈ r, c ≠ '/') :
    parsePatterns (httpPre ++ (o ++ '/' :: r)) = .ok (o, dropGit r) := by
  have hn1 : httpsPre.isPrefixOf (httpPre ++ (o ++ '/' :: r)) = false := by
    simp [httpsPre, httpPre, List.isPrefixOf]
  have h2 : httpPre.isPrefixOf (httpPre ++ (o ++ '/' :: r)) = true := by
    rw [List.isPrefixOf_iff_prefix]; exact List.prefix_append _ _
  unfold parsePatterns
  rw [tryPat_neg hn1, tryPat_pos h2, List.drop_left,
    matchTwoSeg_seg o r ho hr hoc hrc]

theorem parsePatterns_dom (o r : Str) (ho : o ≠ []) (hr : r ≠ [])
    (hoc : ∀ c ∈ o, c ≠ '/') (hrc : ∀ c ∈ r, c ≠ '/') :
    parsePatterns (domPre ++ (o ++ '/' :: r)) = .ok (o, dropGit r) := by
  have hn1 : httpsPre.isPrefixOf (domPre ++ (o ++ '/' :: r)) = false := by
    simp [httpsPre, domPre, List.isPrefixOf]
  have hn2 : httpPre.isPrefixOf (domPre ++ (o ++ '/' :: r)) = false := by
    simp [httpPre, domPre, List.isPrefixOf]
  have h3 : domPre.isPrefixOf (domPre ++ (o ++ '/' :: r)) = true := by
    rw [List.isPrefixOf_iff_prefix]; exact List.prefix_append _ _
  unfold parsePatterns
  rw [tryPat_neg hn1, tryPat_neg hn2, tryPat_pos h3, List.drop_left,
    matchTwoSeg_seg o r ho hr hoc hrc]

theorem parsePatterns_bare (o r : Str) (ho : o ≠ []) (hr : r ≠ [])
    (hoc : ∀ c ∈ o, c ≠ '/') (hrc : ∀ c ∈ r, c ≠ '/') :
    parsePatterns (o ++ '/' :: r) = .ok (o, dropGit r) := by
  have hn1 := https_not_prefix hoc hrc
  have hn2 := http_not_prefix hoc hrc
  unfold parsePatterns
  rw [tryPat_neg hn1, tryPat_neg hn2]
  by_cases h3 : domPre.isPrefixOf (o ++ '/' :: r) = true
  · have ho3 : o = ghSeg := dom_prefix_seg hoc h3
    subst ho3
    have he : (ghSeg ++ '/' :: r : Str) = domPre ++ r := by
      have h4 : (ghSeg ++ ['/'] : Str) = domPre := by decide
      rw [← h4]; simp
    rw [tryPat_pos h3]
    rw [he, List.drop_left, matchTwoSeg_noSlash r hrc, ← he,
      matchTwoSeg_seg ghSeg r (by decide) hr (by decide) hrc]
  · have h3f : domPre.isPrefixOf (o ++ '/' :: r) = false := by
      rw [Bool.eq_false_iff]; exact h3
    rw [tryPat_neg h3f, matchTwoSeg_seg o r ho hr hoc hrc]

theorem seg_ws (o r : Str) (how : ∀ c ∈ o, c.isWhitespace = false)
    (hrw : ∀ c ∈ r, c.isWhitespace = false) :
    ∀ c ∈ (o ++ '/' :: r : Str), c.isWhitespace = false := by
  intro c hc
  rcases List.mem_append.mp hc with h | h
  · exact how c h
  · rcases List.mem_cons.mp h with h | h
    · subst h; decide
    · exact hrw c h

theorem pre_seg_ws (pre o r : Str) (hP : ∀ c ∈ pre, c.isWhitespace = false)
    (how : ∀ c ∈ o, c.isWhitespace = false)
    (hrw : ∀ c ∈ r, c.isWhitespace = false) :
    ∀ c ∈ (pre ++ (o ++ '/' :: r) : Str), c.isWhitespace = false := by
  intro c hc
  rcases List.mem_append.mp hc with h | h
  · exact hP c h
  · exact seg_ws o r how hrw c h

theorem rstrip_seg (A o r : Str) (hr : r ≠ []) (hrc : ∀ c ∈ r, c ≠ '/') :
    rstripSlash (A ++ (o ++ '/' :: r)) = A ++ (o ++ '/' :: r) := by
  have he : (A ++ (o ++ '/' :: r) : Str) = (A ++ (o ++ ['/'])) ++ r := by simp
  rw [he, rstripSlash_keep _ _ hr hrc]

theorem parse_https_form (o r : Str) (ho : o ≠ []) (hr : r ≠ [])
    (hoc : ∀ c ∈ o, c ≠ '/') (hrc : ∀ c ∈ r, c ≠ '/')
    (how : ∀ c ∈ o, c.isWhitespace = false)
    (hrw : ∀ c ∈ r, c.isWhitespace = false) :
    parse_github_url (httpsPre ++ (o ++ '/' :: r)) = .ok (o, dropGit r) := by
  have hws := pre_seg_ws httpsPre o r (by decide) how hrw
  have hne : (httpsPre ++ (o ++ '/' :: r) : Str) ≠ [] := by simp
  unfold parse_github_url
  rw [if_neg hne, strip_noop hws, rstrip_seg httpsPre o r hr hrc,
    parsePatterns_https o r ho hr hoc hrc]

theorem parse_http_form (o r : Str) (ho : o ≠ []) (hr : r ≠ [])
    (hoc : ∀ c ∈ o, c ≠ '/') (hrc : ∀ c ∈ r, c ≠ '/')
    (how : ∀ c ∈ o, c.isWhitespace = false)
    (hrw : ∀ c ∈ r, c.isWhitespace = false) :
    parse_github_url (httpPre ++ (o ++ '/' :: r)) = .ok (o, dropGit r) := by
  have hws := pre_seg_ws httpPre o r (by decide) how hrw
  have hne : (httpPre ++ (o ++ '/' :: r) : Str) ≠ [] := by simp
  unfold parse_github_url
  rw [if_neg hne, strip_noop hws, rstrip_seg httpPre o r hr hrc,
    parsePatterns_http o r ho hr hoc hrc]

theorem parse_dom_form (o r : Str) (ho : o ≠ []) (hr : r ≠ [])
    (hoc : ∀ c ∈ o, c ≠ '/') (hrc : ∀ c ∈ r, c ≠ '/')
    (how : ∀ c ∈ o, c.isWhitespace = false)
    (hrw : ∀ c ∈ r, c.isWhitespace = false) :
    parse_github_url (domPre ++ (o ++ '/' :: r)) = .ok (o, dropGit r) := by
  have hws := pre_seg_ws domPre o r (by decide) how hrw
  have hne : (domPre ++ (o ++ '/' :: r) : Str) ≠ [] := by simp
  unfold parse_github_url
  rw [if_neg hne, strip_noop hws, rstrip_seg domPre o r hr hrc,
    parsePatterns_dom o r ho hr hoc hrc]

theorem parse_bare_form (o r : Str) (ho : o ≠ []) (hr : r ≠ [])
    (hoc : ∀ c ∈ o, c ≠ '/') (hrc : ∀ c ∈ r, c ≠ '/')
    (how : ∀ c ∈ o, c.isWhitespace = false)
    (hrw : ∀ c ∈ r, c.isWhitespace = false) :
    parse_github_url (o ++ '/' :: r) = .ok (o, dropGit r) := by
  have hws := seg_ws o r how hrw
  have hne : (o ++ '/' :: r : Str) ≠ [] := by simp
  have hrs : rstripSlash (o ++ '/' :: r) = o ++ '/' :: r := by
    have he : (o ++ '/' :: r : Str) = [] ++ (o ++ '/' :: r) := by simp
    rw [he, rstrip_seg [] o r hr hrc]
  unfold parse_github_url
  rw [if_neg hne, strip_noop hws, hrs, parsePatterns_bare o r ho hr hoc hrc]

theorem parse_trailing_slash (A : Str) (hA : A ≠ [])
    (hws : ∀ c ∈ A, c.isWhitespace = false) :
    parse_github_url (A ++ ['/']) = parse_github_url A := by
  have h1 : (A ++ ['/'] : Str) ≠ [] := by simp
  have hws2 : ∀ c ∈ (A ++ ['/'] : Str), c.isWhitespace = false := by
    intro c hc
    rcases List.mem_append.mp hc with h | h
    · exact hws c h
    · rcases List.mem_cons.mp h with h | h
      · subst h; decide
      · simp at h
  unfold parse_github_url
  rw [if_neg h1, if_neg hA, strip_noop hws, strip_noop hws2,
    rstripSlash_app_slash]

/- ------------------------------------------------------------------ -/
/- Extraction lemmas for the response normalizer.                      -/
/- ------------------------------------------------------------------ -/

theorem extractJson_span (a m b : Str) (ha : '\x7b' ∉ a) (hb : '\x7d' ∉ b) :
    extractJson (a ++ '\x7b' :: (m ++ '\x7d' :: b)) =
      some ('\x7b' :: (m ++ ['\x7d'])) := by
  have hbr : ∀ c ∈ b.reverse, (c != '\x7d') = true := by
    intro c hc
    have hm : c ∈ b := List.mem_reverse.mp hc
    simp only [bne_iff_ne, ne_eq]
    intro he; subst he; exact hb hm
  have har : ∀ c ∈ a, (c != '\x7b') = true := by
    intro c hc
    simp only [bne_iff_ne, ne_eq]
    intro he; subst he; exact ha hc
  have h1 : (a ++ '\x7b' :: (m ++ '\x7d' :: b)).reverse =
      b.reverse ++ '\x7d' :: (m.reverse ++ '\x7b' :: a.reverse) := by
    simp
  simp only [extractJson]
  rw [h1, dropWhile_app b.reverse (m.reverse ++ '\x7b' :: a.reverse) hbr
    (by decide)]
  have h2 : ('\x7d' :: (m.reverse ++ '\x7b' :: a.reverse) : Str).reverse =
      a ++ '\x7b' :: (m ++ ['\x7d']) := by simp
  rw [h2, dropWhile_app a (m ++ ['\x7d']) har (by decide)]
  simp

theorem extractCandidate_no_brace {t : Str} (h : '\x7b' ∉ t) :
    extractCandidate t = stripStr t := by
  have h3 : ∀ c ∈ ((stripStr t).reverse.dropWhile (fun c => c != '\x7d')).reverse,
      (c != '\x7b') = true := by
    intro c hc
    have hm1 := List.mem_reverse.mp hc
    have hm2 := (List.dropWhile_sublist _).subset hm1
    have hm3 := List.mem_reverse.mp hm2
    simp only [bne_iff_ne, ne_eq]
    intro he; subst he; exact h (mem_stripStr hm3)
  simp only [extractCandidate, extractJson]
  rw [dropWhile_all_true h3]
  simp

/- ------------------------------------------------------------------ -/
/- Concrete data used by witnesses and counterexamples.                -/
/- ------------------------------------------------------------------ -/

def sampleIssue : IssueData :=
  { title := [], body := none, state := [], labels := [], comments := 0,
    comments_url := [], pull_request := false }

def envA : Env :=
  { fetch := FetchOutcome.response 200 sampleIssue,
    commentsResult := CommentsOutcome.failure, llm := LlmOutcome.failure }

def env403 : Env :=
  { fetch := FetchOutcome.response 403 sampleIssue,
    commentsResult := CommentsOutcome.failure, llm := LlmOutcome.failure }

def reqFR (n : Int) : IssueRequest :=
  { repo_url := "facebook/react".data, issue_number := n }

def exampleReply : Str :=
  "Here is the result: \x7b\"summary\":\"x\",\"type\":\"bug\",\"priority_score\":\"1\",\"suggested_labels\":[\"bug\"],\"potential_impact\":\"y\"\x7d".data

def exampleJson : Str :=
  "\x7b\"summary\":\"x\",\"type\":\"bug\",\"priority_score\":\"1\",\"suggested_labels\":[\"bug\"],\"potential_impact\":\"y\"\x7d".data

def exampleAnalysis : IssueAnalysis :=
  { summary := "x".data, type := "bug".data, priority_score := "1".data,
    suggested_labels := ["bug".data], potential_impact := "y".data }

def sixLabels : List Str :=
  ["a".data, "b".data, "c".data, "d".data, "e".data, "f".data]

def sixLabelCandidate : Candidate :=
  [(kSummary, JVal.jstr ("s".data)),
   (kType, JVal.jstr ("bug".data)),
   (kPriority, JVal.jstr ("1".data)),
   (kLabels, JVal.jlist sixLabels),
   (kImpact, JVal.jstr ("i".data))]

/- ------------------------------------------------------------------ -/
/- Claim theorems.                                                     -/
/- ------------------------------------------------------------------ -/

/-- C1: the claim states analyze_with_llm always returns a valid
IssueAnalysis and never raises, even for an erroring model call and
existing labels whose names all contain characters outside the label
class.  The code violates this: with an erroring model call and the
single existing label name of three exclamation marks the fallback
dictionary itself fails validation and the error escapes
analyze_with_llm. -/
theorem c1_fallback_validation_escapes :
    analyze_with_llm ("x".data) [] [] [Label.mk (some ("!!!".data))] []
      LlmOutcome.failure = .error noValidLabelsMsg := rfl

/-- C2: a nonpositive issue number makes the endpoint respond 400 with
no network call attempted (and the request model bound rejects it too). -/
theorem c2_nonpositive_issue_number (req : IssueRequest) (env : Env)
    (h : req.issue_number ≤ 0) :
    statusOf (analyze_issue req env).fst = 400
  ∧ (analyze_issue req env).snd = []
  ∧ issueRequestFieldOk req = false := by
  have hg : ∀ o r : Str, get_issue_data o r req.issue_number env.fetch =
      (.error (PyErr.valueError ("Issue number must be positive".data)), []) := by
    intro o r; unfold get_issue_data; rw [if_pos h]
  have hfo : issueRequestFieldOk req = false := by
    unfold issueRequestFieldOk
    simp only [decide_eq_false_iff_not]
    omega
  refine ⟨?_, ?_, hfo⟩ <;>
  · unfold analyze_issue
    cases hp : parse_github_url req.repo_url with
    | error m => simp [statusOf]
    | ok pr =>
      obtain ⟨o, r⟩ := pr
      dsimp only
      rw [hg o r]
      try simp [statusOf]

theorem c2_witness :
    statusOf (analyze_issue (reqFR 0) envA).fst = 400
  ∧ (analyze_issue (reqFR 0) envA).snd = []
  ∧ issueRequestFieldOk (reqFR 0) = false :=
  c2_nonpositive_issue_number (reqFR 0) envA (by decide)

/-- C3 counterexample: the claim states a GitHub 403 yields HTTP 502;
on the code a 403 issue fetch yields HTTP 400. -/
theorem c3_counterexample :
    statusOf (analyze_issue (reqFR 1) env403).fst = 400
  ∧ statusOf (analyze_issue (reqFR 1) env403).fst ≠ 502 :=
  ⟨rfl, by decide⟩

/-- C3 amended: a 403 issue fetch makes get_issue_data raise ValueError
with the rate-limit message, which the endpoint maps to HTTP 400, not
502. -/
theorem c3_403_maps_to_400 (req : IssueRequest) (env : Env) (d : IssueData)
    (o r : Str) (hp : parse_github_url req.repo_url = .ok (o, r))
    (hn : 1 ≤ req.issue_number) (hf : env.fetch = FetchOutcome.response 403 d) :
    get_issue_data o r req.issue_number env.fetch =
      (.error (PyErr.valueError ratelimitMsg), [NetCall.issueFetch])
  ∧ (analyze_issue req env).fst = HttpOutcome.httpError 400 ratelimitMsg
  ∧ statusOf (analyze_issue req env).fst ≠ 502 := by
  have hg : get_issue_data o r req.issue_number env.fetch =
      (.error (PyErr.valueError ratelimitMsg), [NetCall.issueFetch]) := by
    unfold get_issue_data
    rw [if_neg (by omega), hf]
    norm_num
  have h2 : (analyze_issue req env).fst = HttpOutcome.httpError 400 ratelimitMsg := by
    unfold analyze_issue
    rw [hp]
    dsimp only
    rw [hg]
  refine ⟨hg, h2, ?_⟩
  rw [h2]
  decide

theorem c3_witness :
    get_issue_data ("facebook".data) ("react".data) 1
        (FetchOutcome.response 403 sampleIssue) =
      (.error (PyErr.valueError ratelimitMsg), [NetCall.issueFetch]) :=
  (c3_403_maps_to_400 (reqFR 1) env403 sampleIssue ("facebook".data)
    ("react".data) rfl (by decide) rfl).1

/-- C4 counterexample: the claim states the input github.com/onlyowner
fails with InvalidURL; on the code the bare OWNER/REPO pattern accepts
it and returns the pair (github.com, onlyowner). -/
theorem c4_counterexample :
    parse_github_url ("github.com/onlyowner".data) =
      .ok ("github.com".data, "onlyowner".data) := rfl

/-- C4 amended: the empty string and not-a-url fail with the invalid-URL
errors, but github.com/onlyowner parses as owner github.com and repo
onlyowner via the bare OWNER/REPO pattern. -/
theorem c4_amended :
    parse_github_url ("not a url".data) = .error invalidUrlMsg
  ∧ parse_github_url [] = .error emptyUrlMsg
  ∧ parse_github_url ("github.com/onlyowner".data) =
      .ok ("github.com".data, "onlyowner".data) :=
  ⟨rfl, rfl, rfl⟩

/-- C5 counterexample: the claim states a candidate with more than five
valid labels is accepted with the first five kept; on the code the
max_items constraint of the Field rejects a six-label candidate before
the cleaning validator can truncate, while the validator alone would
have truncated and accepted. -/
theorem c5_counterexample :
    mkIssueAnalysis sixLabelCandidate = .error maxItemsMsg
  ∧ suggestedLabelsField sixLabels = .error maxItemsMsg
  ∧ validate_labels sixLabels = .ok (sixLabels.take 5) :=
  ⟨rfl, rfl, rfl⟩

/-- C5 amended: entries are trimmed, lowercased and filtered against the
label character class, validation fails when no entry survives, and any
accepted result has at most five entries — but a candidate list longer
than five entries is rejected outright by the max_items constraint, not
truncated. -/
theorem c5_labels_validation (v : List Str) :
    (5 < v.length → suggestedLabelsField v = .error maxItemsMsg)
  ∧ (v.filterMap cleanLabel = [] → ∀ out, suggestedLabelsField v ≠ .ok out)
  ∧ (∀ out, suggestedLabelsField v = .ok out →
      out.length ≤ 5 ∧
      ∀ l ∈ out, l ≠ [] ∧ l.all validLabelChar = true ∧
        ∃ orig, orig ∈ v ∧ l = lowerStr (stripStr orig)) := by
  refine ⟨?_, ?_, ?_⟩
  · intro h
    unfold suggestedLabelsField
    rw [if_neg (by omega), if_pos h]
  · intro hc out
    unfold suggestedLabelsField validate_labels
    rw [hc]
    split_ifs <;> simp
  · intro out h
    unfold suggestedLabelsField validate_labels at h
    split_ifs at h with h1 h2 h3
    by_cases h5 : v.filterMap cleanLabel = []
    · rw [if_pos h5] at h; cases h
    · rw [if_neg h5] at h
      simp only [Except.ok.injEq] at h
      subst h
      constructor
      · rw [List.length_take]
        exact Nat.min_le_left 5 _
      · intro l hl
        have hl2 : l ∈ v.filterMap cleanLabel := List.take_subset _ _ hl
        rcases List.mem_filterMap.mp hl2 with ⟨orig, ho, hco⟩
        unfold cleanLabel at hco
        split_ifs at hco with hs
        by_cases hall : (lowerStr (stripStr orig)).all validLabelChar = true
        · rw [if_pos hall] at hco
          simp only [Option.some.injEq] at hco
          subst hco
          refine ⟨?_, hall, orig, ho, rfl⟩
          simp only [lowerStr, ne_eq, List.map_eq_nil_iff]
          exact hs
        · rw [if_neg hall] at hco
          cases hco

theorem c5_witness :
    suggestedLabelsField sixLabels = .error maxItemsMsg
  ∧ suggestedLabelsField ([" ".data]) ≠ .ok (["x".data])
  ∧ (["bug".data] : List Str).length ≤ 5 :=
  ⟨(c5_labels_validation sixLabels).1 (by decide),
   (c5_labels_validation ([" ".data])).2.1 (by decide) (["x".data]),
   ((c5_labels_validation ([" Bug ".data])).2.2 (["bug".data]) rfl).1⟩

/-- C6: the accepted URL forms — with the https or http scheme, with the
bare domain, or as bare OWNER/REPO, with or without a trailing slash and
with or without a .git suffix on the repository — all parse to the
identical (owner, repo) pair, and the three spec examples all give
(facebook, react). -/
theorem c6_equivalent_url_forms (o r : Str) (ho : o ≠ []) (hr : r ≠ [])
    (hoc : ∀ c ∈ o, c ≠ '/' ∧ c.isWhitespace = false)
    (hrc : ∀ c ∈ r, c ≠ '/' ∧ c.isWhitespace = false)
    (hgit : gitSuffix.isSuffixOf r = false) :
    parse_github_url (httpsPre ++ (o ++ '/' :: r)) = .ok (o, r)
  ∧ parse_github_url (httpPre ++ (o ++ '/' :: r)) = .ok (o, r)
  ∧ parse_github_url (domPre ++ (o ++ '/' :: r)) = .ok (o, r)
  ∧ parse_github_url (o ++ '/' :: r) = .ok (o, r)
  ∧ parse_github_url ((httpsPre ++ (o ++ '/' :: r)) ++ ['/']) =
      parse_github_url (httpsPre ++ (o ++ '/' :: r))
  ∧ parse_github_url ((o ++ '/' :: r) ++ ['/']) =
      parse_github_url (o ++ '/' :: r)
  ∧ parse_github_url (httpsPre ++ (o ++ '/' :: (r ++ gitSuffix))) = .ok (o, r)
  ∧ parse_github_url (o ++ '/' :: (r ++ gitSuffix)) = .ok (o, r)
  ∧ parse_github_url ("https://github.com/facebook/react".data) =
      .ok ("facebook".data, "react".data)
  ∧ parse_github_url ("github.com/facebook/react/".data) =
      .ok ("facebook".data, "react".data)
  ∧ parse_github_url ("facebook/react".data) =
      .ok ("facebook".data, "react".data) := by
  have hoc1 : ∀ c ∈ o, c ≠ '/' := fun c hc => (hoc c hc).1
  have how : ∀ c ∈ o, c.isWhitespace = false := fun c hc => (hoc c hc).2
  have hrc1 : ∀ c ∈ r, c ≠ '/' := fun c hc => (hrc c hc).1
  have hrw : ∀ c ∈ r, c.isWhitespace = false := fun c hc => (hrc c hc).2
  have hdg : dropGit r = r := dropGit_keep r hgit
  have hgit4 : ∀ c ∈ gitSuffix, c ≠ '/' ∧ c.isWhitespace = false := by decide
  have hrg : (r ++ gitSuffix : Str) ≠ [] := by simp [gitSuffix]
  have hrgc : ∀ c ∈ (r ++ gitSuffix : Str), c ≠ '/' := by
    intro c hc
    rcases List.mem_append.mp hc with hm | hm
    · exact hrc1 c hm
    · exact (hgit4 c hm).1
  have hrgw : ∀ c ∈ (r ++ gitSuffix : Str), c.isWhitespace = false := by
    intro c hc
    rcases List.mem_append.mp hc with hm | hm
    · exact hrw c hm
    · exact (hgit4 c hm).2
  refine ⟨?_, ?_, ?_, ?_, ?_, ?_, ?_, ?_, rfl, rfl, rfl⟩
  · rw [parse_https_form o r ho hr hoc1 hrc1 how hrw, hdg]
  · rw [parse_http_form o r ho hr hoc1 hrc1 how hrw, hdg]
  · rw [parse_dom_form o r ho hr hoc1 hrc1 how hrw, hdg]
  · rw [parse_bare_form o r ho hr hoc1 hrc1 how hrw, hdg]
  · exact parse_trailing_slash _ (by simp)
      (pre_seg_ws httpsPre o r (by decide) how hrw)
  · exact parse_trailing_slash _ (by simp) (seg_ws o r how hrw)
  · rw [parse_https_form o (r ++ gitSuffix) ho hrg hoc1 hrgc how hrgw,
      dropGit_app]
  · rw [parse_bare_form o (r ++ gitSuffix) ho hrg hoc1 hrgc how hrgw,
      dropGit_app]

theorem c6_witness :
    parse_github_url (httpsPre ++ (("facebook".data : Str) ++ '/' ::
      ("react".data : Str))) = .ok ("facebook".data, "react".data) :=
  (c6_equivalent_url_forms ("facebook".data) ("react".data) (by decide)
    (by decide) (by decide) (by decide) (by decide)).1

/-- C7: the normalizer candidate is the span from the first opening
brace (with a closing brace after it) to the last closing brace of the
stripped reply; with no such span the stripped reply itself is the
candidate; and on the spec example reply the embedded object is
extracted, parsed and returned unchanged after validation. -/
theorem c7_normalizer_extraction (a m b t : Str)
    (ha : '\x7b' ∉ a) (hb : '\x7d' ∉ b) (hnb : '\x7b' ∉ t) :
    extractJson (a ++ '\x7b' :: (m ++ '\x7d' :: b)) =
      some ('\x7b' :: (m ++ ['\x7d']))
  ∧ extractCandidate t = stripStr t
  ∧ extractCandidate exampleReply = exampleJson
  ∧ jsonParse (extractCandidate exampleReply) = some
      [(kSummary, JVal.jstr ("x".data)),
       (kType, JVal.jstr ("bug".data)),
       (kPriority, JVal.jstr ("1".data)),
       (kLabels, JVal.jlist (["bug".data])),
       (kImpact, JVal.jstr ("y".data))]
  ∧ analyze_with_llm [] [] [] [] [] (LlmOutcome.text exampleReply) =
      .ok exampleAnalysis :=
  ⟨extractJson_span a m b ha hb, extractCandidate_no_brace hnb, rfl, rfl, rfl⟩

theorem c7_witness :
    extractJson (("Here is the result: ".data : Str) ++ '\x7b' ::
        (("\"k\":\"v\"".data : Str) ++ '\x7d' :: ("".data : Str))) =
      some ('\x7b' :: (("\"k\":\"v\"".data : Str) ++ ['\x7d']))
  ∧ extractCandidate ("I cannot help with that.".data) =
      stripStr ("I cannot help with that.".data) :=
  ⟨(c7_normalizer_extraction ("Here is the result: ".data) ("\"k\":\"v\"".data)
      ("".data) ("I cannot help with that.".data) (by decide) (by decide)
      (by decide)).1,
   (c7_normalizer_extraction ("Here is the result: ".data) ("\"k\":\"v\"".data)
      ("".data) ("I cannot help with that.".data) (by decide) (by decide)
      (by decide)).2.1⟩

/-- C8: the fallback classifier applies its keyword rules in source
order on the lowercased title, first match winning; summary, priority,
impact and labels are filled deterministically; and the three spec
examples classify as bug, feature_request and question. -/
theorem c8_fallback_classifier (title body : Str) (existing_labels : List Str) :
    (bugWords.any (fun w => hasSub w (lowerStr title)) = true →
      dictGet (create_fallback_analysis title body existing_labels) kType =
        some (JVal.jstr ("bug".data)))
  ∧ (bugWords.any (fun w => hasSub w (lowerStr title)) = false →
     featureWords.any (fun w => hasSub w (lowerStr title)) = true →
      dictGet (create_fallback_analysis title body existing_labels) kType =
        some (JVal.jstr ("feature_request".data)))
  ∧ (bugWords.any (fun w => hasSub w (lowerStr title)) = false →
     featureWords.any (fun w => hasSub w (lowerStr title)) = false →
     docWords.any (fun w => hasSub w (lowerStr title)) = true →
      dictGet (create_fallback_analysis title body existing_labels) kType =
        some (JVal.jstr ("documentation".data)))
  ∧ (bugWords.any (fun w => hasSub w (lowerStr title)) = false →
     featureWords.any (fun w => hasSub w (lowerStr title)) = false →
     docWords.any (fun w => hasSub w (lowerStr title)) = false →
     questionStarts.any (fun w => w.isPrefixOf (lowerStr title)) = true →
      dictGet (create_fallback_analysis title body existing_labels) kType =
        some (JVal.jstr ("question".data)))
  ∧ (bugWords.any (fun w => hasSub w (lowerStr title)) = false →
     featureWords.any (fun w => hasSub w (lowerStr title)) = false →
     docWords.any (fun w => hasSub w (lowerStr title)) = false →
     questionStarts.any (fun w => w.isPrefixOf (lowerStr title)) = false →
      dictGet (create_fallback_analysis title body existing_labels) kType =
        some (JVal.jstr ("other".data)))
  ∧ (title.length ≤ 100 →
      dictGet (create_fallback_analysis title body existing_labels) kSummary =
        some (JVal.jstr (summaryPre ++ title)))
  ∧ (100 < title.length →
      dictGet (create_fallback_analysis title body existing_labels) kSummary =
        some (JVal.jstr (summaryPre ++ title.take 100 ++ "...".data)))
  ∧ dictGet (create_fallback_analysis title body existing_labels) kPriority =
      some (JVal.jstr priorityFallback)
  ∧ dictGet (create_fallback_analysis title body existing_labels) kImpact =
      some (JVal.jstr impactFallback)
  ∧ (existing_labels = [] →
      dictGet (create_fallback_analysis title body existing_labels) kLabels =
        some (JVal.jlist [needsTriage]))
  ∧ (existing_labels ≠ [] →
      dictGet (create_fallback_analysis title body existing_labels) kLabels =
        some (JVal.jlist (existing_labels.take 3)))
  ∧ dictGet (create_fallback_analysis ("Bug: login broken".data) body
      existing_labels) kType = some (JVal.jstr ("bug".data))
  ∧ dictGet (create_fallback_analysis ("Add dark mode support".data) body
      existing_labels) kType = some (JVal.jstr ("feature_request".data))
  ∧ dictGet (create_fallback_analysis ("How do I configure X?".data) body
      existing_labels) kType = some (JVal.jstr ("question".data)) := by
  refine ⟨?_, ?_, ?_, ?_, ?_, ?_, ?_, rfl, rfl, ?_, ?_, rfl, rfl, rfl⟩
  · intro h1
    simp only [create_fallback_analysis, h1, if_true]
    rfl
  · intro h1 h2
    simp only [create_fallback_analysis, h1, h2, if_true, Bool.false_eq_true,
      if_false]
    rfl
  · intro h1 h2 h3
    simp only [create_fallback_analysis, h1, h2, h3, if_true,
      Bool.false_eq_true, if_false]
    rfl
  · intro h1 h2 h3 h4
    simp only [create_fallback_analysis, h1, h2, h3, h4, if_true,
      Bool.false_eq_true, if_false]
    rfl
  · intro h1 h2 h3 h4
    simp only [create_fallback_analysis, h1, h2, h3, h4, Bool.false_eq_true,
      if_false]
    rfl
  · intro h
    have h2 : ¬ (100 < title.length) := by omega
    simp only [create_fallback_analysis, if_neg h2]
    have h3 : title.take 100 = title := List.take_of_length_le h
    simp only [h3, List.append_nil]
    rfl
  · intro h
    simp only [create_fallback_analysis, if_pos h]
    rfl
  · intro h
    simp only [create_fallback_analysis, if_pos h]
    rfl
  · intro h
    simp only [create_fallback_analysis, if_neg h]
    rfl

theorem c8_witness :
    dictGet (create_fallback_analysis ("Bug: login broken".data) [] [])
      kType = some (JVal.jstr ("bug".data))
  ∧ dictGet (create_fallback_analysis ("Add dark mode support".data) [] [])
      kType = some (JVal.jstr ("feature_request".data))
  ∧ dictGet (create_fallback_analysis ("How do I configure X?".data) [] [])
      kType = some (JVal.jstr ("question".data)) :=
  ⟨(c8_fallback_classifier ("Bug: login broken".data) [] []).1 (by decide),
   (c8_fallback_classifier ("Add dark mode support".data) [] []).2.1
     (by decide) (by decide),
   (c8_fallback_classifier ("How do I configure X?".data) [] []).2.2.2.1
     (by decide) (by decide) (by decide) (by decide)⟩

/-- C9: get_issue_comments never fails its caller: any fetch failure or
non-200 status (and an empty comments URL) give the empty string;
successful comment lists render with comments empty after strip skipped,
the rest attributed to their author and joined with the exact separator;
when nothing remains the result is the empty string. -/
theorem c9_comments_resilient (url : Str) (st : Nat) (data : List CommentInfo)
    (c : CommentInfo) (rest : List CommentInfo) :
    (get_issue_comments url CommentsOutcome.failure).fst = []
  ∧ (get_issue_comments [] (CommentsOutcome.response st data)).fst = []
  ∧ (st ≠ 200 →
      (get_issue_comments url (CommentsOutcome.response st data)).fst = [])
  ∧ (url ≠ [] →
      (get_issue_comments url (CommentsOutcome.response 200 data)).fst =
        commentSep.intercalate (renderedComments data))
  ∧ (stripStr c.body = [] →
      renderedComments (c :: rest) = renderedComments rest)
  ∧ (stripStr c.body ≠ [] →
      renderedComments (c :: rest) =
        ("Comment by ".data ++ c.login.getD ("unknown".data) ++ ":\n".data ++
          stripStr c.body) :: renderedComments rest)
  ∧ (renderedComments data = [] →
      (get_issue_comments url (CommentsOutcome.response 200 data)).fst = []) := by
  have hjoin_nil : commentSep.intercalate ([] : List Str) = [] := by
    simp [List.intercalate]
  have h200 : ¬ ((200 : Nat) ≠ 200) := fun hx => hx rfl
  refine ⟨?_, rfl, ?_, ?_, ?_, ?_, ?_⟩
  · unfold get_issue_comments
    by_cases hu : url = []
    · rw [if_pos hu]
    · rw [if_neg hu]
  · intro h
    unfold get_issue_comments
    by_cases hu : url = []
    · rw [if_pos hu]
    · rw [if_neg hu]
      dsimp only
      rw [if_pos h]
  · intro hu
    unfold get_issue_comments
    rw [if_neg hu]
    dsimp only
    rw [if_neg h200]
    by_cases hd : data = []
    · rw [if_pos hd, hd]
      simp [renderedComments, hjoin_nil]
    · rw [if_neg hd]
  · intro h
    simp [renderedComments, h]
  · intro h
    simp [renderedComments, h]
  · intro h
    unfold get_issue_comments
    by_cases hu : url = []
    · rw [if_pos hu]
    · rw [if_neg hu]
      dsimp only
      rw [if_neg h200]
      by_cases hd : data = []
      · rw [if_pos hd]
      · rw [if_neg hd, h, hjoin_nil]

theorem c9_witness :
    (get_issue_comments ("u".data) CommentsOutcome.failure).fst = []
  ∧ (get_issue_comments ("u".data) (CommentsOutcome.response 500 [])).fst = []
  ∧ (get_issue_comments ("u".data) (CommentsOutcome.response 200
      [CommentInfo.mk (some ("alice".data)) (" hi ".data),
       CommentInfo.mk none ("  ".data)])).fst =
      commentSep.intercalate (renderedComments
        [CommentInfo.mk (some ("alice".data)) (" hi ".data),
         CommentInfo.mk none ("  ".data)]) :=
  ⟨(c9_comments_resilient ("u".data) 500 [] (CommentInfo.mk none []) []).1,
   (c9_comments_resilient ("u".data) 500 [] (CommentInfo.mk none []) []).2.2.1
     (by decide),
   (c9_comments_resilient ("u".data) 200
     [CommentInfo.mk (some ("alice".data)) (" hi ".data),
      CommentInfo.mk none ("  ".data)] (CommentInfo.mk none []) []).2.2.2.1
     (by decide)⟩

/-- C10: the fallback analysis is independent of the issue body — for
any two body strings the resulting candidate dictionaries are equal in
every field, even though the body is accepted and lowercased. -/
theorem c10_fallback_ignores_body (title : Str) (existing_labels : List Str)
    (b1 b2 : Str) :
    create_fallback_analysis title b1 existing_labels =
      create_fallback_analysis title b2 existing_labels := rfl
